import Mathlib

/-!
# nvcvcam: the stoppable worker thread and the NPP error strings

A shallow embedding of `include/stoppable_thread.hpp` (namespace
`nvcvcam::thread`) and of `nppErrorString` / `error_string(NppStatus)` from
`src/nvcvcam_error.cpp`.

The header declares the class `StoppableThread`; the bodies of `execute`,
`run`, `start`, `wait`, `stop` and of the destructor live in a translation
unit that is not part of the sources at hand. Those members are modelled from
the written specification and are marked as such.
-/

namespace nvcvcam.thread

/-! ## Data model (from the header) -/

/-- interval for sleeping (eg. while waiting):
`const uint64_t SLEEP_INTERVAL_NS = 100000;` -/
def SLEEP_INTERVAL_NS : Nat := 100000

/-- Thread states: `enum State`. -/
inductive State where
  | STOPPED
  | INITIALIZING
  | RUNNING
  | FAILED
  deriving DecidableEq, Repr

/-- The enumerator values: `STOPPED = 0x1, INITIALIZING = 0x2, RUNNING = 0x4,
FAILED = 0x8`. -/
def State.val : State → Nat
  | .STOPPED => 0x1
  | .INITIALIZING => 0x2
  | .RUNNING => 0x4
  | .FAILED => 0x8

/-- A mask built with the bitwise operators: the OR of the members of `M`. -/
def maskOf (M : List State) : Nat :=
  M.foldr (fun t m => t.val ||| m) 0

/-- Modelled from the spec: why the background thread left (or never entered)
the `tick` loop of `run`, whose body is not in the sources (§4.1, steps 3 to
5). -/
inductive Exit where
  /-- the loop condition was false: `_stopping` was set (or the state was no
  longer `RUNNING`) -/
  | cancelled
  /-- `tick()` returned false -/
  | tickFailed
  /-- `on_running()` returned false: the loop never ran -/
  | aborted
  deriving DecidableEq, Repr

/-- Modelled from the spec: the program points of `execute`/`run`, the function
of the background thread, whose body is not in the sources (§4.1, "Background
execution sequence"). -/
inductive Pc where
  /-- about to call `setup()` -/
  | atSetup
  /-- the state is `RUNNING`, about to call `on_running()` -/
  | atOnRunning
  /-- about to evaluate the loop condition (and to call `tick()` if it holds) -/
  | atLoop
  /-- about to call `cleanup()`, the loop having been left for reason `why` -/
  | atCleanup (why : Exit)
  /-- the thread function has returned -/
  | finished
  /-- `cleanup()` returned false: `std::terminate` was called -/
  | terminated
  deriving DecidableEq, Repr

/-- The four virtual hooks (used to record the calls made by the thread). -/
inductive Hook where
  | setup
  | on_running
  | tick
  | cleanup
  deriving DecidableEq, Repr

/-- The class `StoppableThread`; `σ` is the data of the derived class.

* `_stopping : std::atomic_bool`, `_state : std::atomic<State>`,
  `_thread : std::unique_ptr<std::thread>` are the three private members;
  `none` is `nullptr`, `some pc` a thread object whose thread stands at `pc`.
* `user` is what the derived class adds.
* `log` is a ghost field: the hooks called so far, oldest first. -/
structure StoppableThread (σ : Type) where
  _stopping : Bool
  _state : State
  _thread : Option Pc
  user : σ
  log : List Hook

/-- The virtual hooks of a derived class. The three members of the base class
are private, so a hook acts on the derived data only. -/
structure Hooks (σ : Type) where
  setup : σ → Bool × σ
  on_running : σ → Bool × σ
  tick : σ → Bool × σ
  cleanup : σ → Bool × σ

/-- Base-class hook `virtual bool setup() { return true; };`. -/
def StoppableThread.setup {σ : Type} (self : σ) : Bool × σ := (true, self)

/-- Base-class hook `virtual bool on_running() { return true; }`. -/
def StoppableThread.on_running {σ : Type} (self : σ) : Bool × σ := (true, self)

/-- Base-class hook `virtual bool cleanup() { return true; };`. -/
def StoppableThread.cleanup {σ : Type} (self : σ) : Bool × σ := (true, self)

/-- A derived class that overrides only the pure virtual `tick()`. -/
def Hooks.onlyTick {σ : Type} (tick : σ → Bool × σ) : Hooks σ where
  setup := StoppableThread.setup
  on_running := StoppableThread.on_running
  tick := tick
  cleanup := StoppableThread.cleanup

/-- Virtual dispatch: call hook `k` of the derived class on the object. -/
def StoppableThread.call {σ : Type} (h : Hooks σ) (k : Hook)
    (s : StoppableThread σ) : Bool × StoppableThread σ :=
  let r := match k with
    | .setup => h.setup s.user
    | .on_running => h.on_running s.user
    | .tick => h.tick s.user
    | .cleanup => h.cleanup s.user
  (r.1, { s with user := r.2 })

/-- Constructor
`StoppableThread() : _stopping(false), _state(State::STOPPED), _thread(nullptr)`. -/
def StoppableThread.new {σ : Type} (u : σ) : StoppableThread σ where
  _stopping := false
  _state := State.STOPPED
  _thread := none
  user := u
  log := []

/-- Method `bool ready() { return _state == State::RUNNING; };`. -/
def StoppableThread.ready {σ : Type} (s : StoppableThread σ) :
    Bool × StoppableThread σ :=
  (decide (s._state = State.RUNNING), s)

/-! ## The members whose bodies are not in the header

`execute`, `run`, `start`, `wait` and `stop` are declared in the header and
defined elsewhere. They are modelled from the specification (§4.1, §5, §7).
The two threads are interleaved explicitly: the background thread is a step
function on the object, and a blocked caller lets it take some steps during
each sleep of the polling loop. -/

/-- Modelled from the spec: two points of the bodies of `execute`/`run` and
`stop` (not in the sources) on which the specification is silent. Every
statement below holds for each choice.

* `abortFails`: the final state when `on_running()` returned false and
  `cleanup()` succeeded is `FAILED` (true) or `STOPPED` (false);
* `stopNonBlocking`: the value returned by `stop(block = false)`. -/
structure Unspecified where
  abortFails : Bool
  stopNonBlocking : Bool

/-- Call hook `k` and record the call in the ghost log. -/
def StoppableThread.invoke {σ : Type} (h : Hooks σ) (k : Hook)
    (s : StoppableThread σ) : Bool × StoppableThread σ :=
  let r := s.call h k
  (r.1, { r.2 with log := r.2.log ++ [k] })

/-- Modelled from the spec: the state published after a successful
`cleanup()` (step 5 of the background execution sequence): `STOPPED` after a
cancellation, `FAILED` after a `tick` failure. -/
def finalState (g : Unspecified) : Exit → State
  | .cancelled => State.STOPPED
  | .tickFailed => State.FAILED
  | .aborted => if g.abortFails then State.FAILED else State.STOPPED

/-- Modelled from the spec: one atomic step of the background thread, i.e. of
`StoppableThread::execute` and `StoppableThread::run`, whose bodies are not in
the sources (§4.1, "Background execution sequence"):

1. call `setup()`; if it returns false set the state to `FAILED` and end;
2. set the state to `RUNNING`;
3. call `on_running()`; if it returns false go to step 5;
4. while `!_stopping` and the state is `RUNNING`, call `tick()`; leave the
   loop as soon as `tick()` returns false;
5. call `cleanup()`; if it returns false the process is terminated, otherwise
   the final state is published.

Without a thread, and once the thread function has returned, nothing happens. -/
def threadStep {σ : Type} (g : Unspecified) (h : Hooks σ)
    (s : StoppableThread σ) : StoppableThread σ :=
  match s._thread with
  | none => s
  | some .atSetup =>
    let r := s.invoke h .setup
    if r.1 then { r.2 with _state := State.RUNNING, _thread := some .atOnRunning }
    else { r.2 with _state := State.FAILED, _thread := some .finished }
  | some .atOnRunning =>
    let r := s.invoke h .on_running
    if r.1 then { r.2 with _thread := some .atLoop }
    else { r.2 with _thread := some (.atCleanup .aborted) }
  | some .atLoop =>
    if !s._stopping && decide (s._state = State.RUNNING) then
      let r := s.invoke h .tick
      if r.1 then r.2
      else { r.2 with _thread := some (.atCleanup .tickFailed) }
    else { s with _thread := some (.atCleanup .cancelled) }
  | some (.atCleanup why) =>
    let r := s.invoke h .cleanup
    if r.1 then { r.2 with _state := finalState g why, _thread := some .finished }
    else { r.2 with _thread := some .terminated }
  | some .finished => s
  | some .terminated => s

/-- Modelled from the spec: the background thread takes `n` steps of
`execute`/`run`. -/
def threadSteps {σ : Type} (g : Unspecified) (h : Hooks σ) :
    Nat → StoppableThread σ → StoppableThread σ
  | 0, s => s
  | n + 1, s => threadSteps g h n (threadStep g h s)

/-- Modelled from the spec: why a call of `start`, `wait` or `stop` yields no
result (§4.1 step 5 and §7, "CleanupFailure"; a caller blocked for ever). -/
inductive Halt where
  /-- the process was terminated (`cleanup()` returned false) -/
  | aborted
  /-- the schedule given to the call ended while the caller was still blocked -/
  | blocked
  deriving DecidableEq, Repr

/-- Modelled from the spec: the process has been terminated by a failed
`cleanup()` (§7, "CleanupFailure"). -/
def StoppableThread.dead {σ : Type} (s : StoppableThread σ) : Bool :=
  decide (s._thread = some Pc.terminated)

/-- Modelled from the spec: the timeout `timeout` of `wait` has elapsed after
`elapsed` nanoseconds; `none` is the default
`std::chrono::nanoseconds::max()`, documented in the header as "forever". -/
def timedOut (timeout : Option Nat) (elapsed : Nat) : Bool :=
  match timeout with
  | none => false
  | some t => decide (t ≤ elapsed)

/-- Modelled from the spec: the polling loop of `StoppableThread::wait`, whose
body is not in the sources, after `elapsed` nanoseconds of waiting (§4.1
`wait`): return true as soon as the state is in the mask `state`, false once
the timeout has elapsed, and otherwise sleep for `SLEEP_INTERVAL_NS` and poll
again. The background thread takes `n` steps during a sleep, where `n` is the
next entry of the schedule `sched`. -/
def StoppableThread.waitFrom {σ : Type} (g : Unspecified) (h : Hooks σ)
    (state : Nat) (timeout : Option Nat) :
    List Nat → Nat → StoppableThread σ → Except Halt (Bool × StoppableThread σ)
  | sched, elapsed, s =>
    if s.dead then .error .aborted
    else if s._state.val &&& state ≠ 0 then .ok (true, s)
    else if timedOut timeout elapsed then .ok (false, s)
    else match sched with
      | [] => .error .blocked
      | n :: rest =>
        StoppableThread.waitFrom g h state timeout rest
          (elapsed + SLEEP_INTERVAL_NS) (threadSteps g h n s)

/-- Modelled from the spec: `bool wait(State state, std::chrono::nanoseconds
timeout)`, whose body is not in the sources. -/
def StoppableThread.wait {σ : Type} (g : Unspecified) (h : Hooks σ)
    (state : Nat) (timeout : Option Nat) (sched : List Nat)
    (s : StoppableThread σ) : Except Halt (Bool × StoppableThread σ) :=
  s.waitFrom g h state timeout sched 0

/-- Modelled from the spec: the non-blocking part of `start` (§4.1 `start`):
clear the cancellation flag, set the state to `INITIALIZING` and spawn the
background thread. -/
def StoppableThread.spawn {σ : Type} (s : StoppableThread σ) :
    StoppableThread σ :=
  { s with _stopping := false, _state := State.INITIALIZING,
           _thread := some Pc.atSetup }

/-- Modelled from the spec: `bool start(bool block, std::chrono::nanoseconds
timeout)`, whose body is not in the sources (§4.1 `start`, §3 "Lifecycle"):
with a background thread already there the call is a no-op that reports the
current readiness; otherwise the thread is spawned and, if `block`, the caller
waits until the state is `RUNNING` or `FAILED` and reports whether the worker
is `RUNNING`. -/
def StoppableThread.start {σ : Type} (g : Unspecified) (h : Hooks σ)
    (block : Bool) (timeout : Option Nat) (sched : List Nat)
    (s : StoppableThread σ) : Except Halt (Bool × StoppableThread σ) :=
  if s.dead then .error .aborted
  else if s._thread.isSome then .ok s.ready
  else if block then
    match s.spawn.wait g h (State.RUNNING.val ||| State.FAILED.val) timeout sched with
    | .error e => .error e
    | .ok r => .ok (r.1 && r.2.ready.1, r.2)
  else .ok (true, s.spawn)

/-- Modelled from the spec: `bool stop(bool block, std::chrono::nanoseconds
timeout)`, whose body is not in the sources (§4.1 `stop`, §5): set the
cancellation flag; if `block`, wait until the state is `STOPPED` or `FAILED`;
once that has been observed the thread is joined and its handle released. -/
def StoppableThread.stop {σ : Type} (g : Unspecified) (h : Hooks σ)
    (block : Bool) (timeout : Option Nat) (sched : List Nat)
    (s : StoppableThread σ) : Except Halt (Bool × StoppableThread σ) :=
  if s.dead then .error .aborted
  else if block then
    match StoppableThread.wait g h (State.STOPPED.val ||| State.FAILED.val) timeout sched
        { s with _stopping := true } with
    | .error e => .error e
    | .ok r => .ok (r.1, if r.1 then { r.2 with _thread := none } else r.2)
  else .ok (g.stopNonBlocking, { s with _stopping := true })

end nvcvcam.thread

namespace nvcvcam

/-! ## The NPP error strings (`src/nvcvcam_error.cpp`)

`NppStatus` is an enumeration of the NPP library; its header is not part of
the sources, so the integer value of each enumerator is a parameter. The
switch is read in the configuration NPP >= 7.0, in which the branches guarded
by `<= 0x5000` are dropped, their `#else` branches are kept, and the branches
guarded by `>= 0x6000` and `>= 0x7000` are kept. -/

/-- The enumerators of `NppStatus` that label a case of the switch of
`nppErrorString` (NPP >= 7.0), in the order of the source. -/
inductive NppCase where
  | NPP_NOT_SUPPORTED_MODE_ERROR
  | NPP_ROUND_MODE_NOT_SUPPORTED_ERROR
  | NPP_RESIZE_NO_OPERATION_ERROR
  | NPP_NOT_SUFFICIENT_COMPUTE_CAPABILITY
  | NPP_BAD_ARGUMENT_ERROR
  | NPP_COEFFICIENT_ERROR
  | NPP_RECTANGLE_ERROR
  | NPP_QUADRANGLE_ERROR
  | NPP_MEMORY_ALLOCATION_ERR
  | NPP_HISTOGRAM_NUMBER_OF_LEVELS_ERROR
  | NPP_INVALID_HOST_POINTER_ERROR
  | NPP_INVALID_DEVICE_POINTER_ERROR
  | NPP_LUT_NUMBER_OF_LEVELS_ERROR
  | NPP_TEXTURE_BIND_ERROR
  | NPP_WRONG_INTERSECTION_ROI_ERROR
  | NPP_NOT_EVEN_STEP_ERROR
  | NPP_INTERPOLATION_ERROR
  | NPP_RESIZE_FACTOR_ERROR
  | NPP_HAAR_CLASSIFIER_PIXEL_MATCH_ERROR
  | NPP_MEMFREE_ERROR
  | NPP_MEMSET_ERROR
  | NPP_MEMCPY_ERROR
  | NPP_MIRROR_FLIP_ERROR
  | NPP_ALIGNMENT_ERROR
  | NPP_STEP_ERROR
  | NPP_SIZE_ERROR
  | NPP_NULL_POINTER_ERROR
  | NPP_CUDA_KERNEL_EXECUTION_ERROR
  | NPP_NOT_IMPLEMENTED_ERROR
  | NPP_ERROR
  | NPP_SUCCESS
  | NPP_WRONG_INTERSECTION_QUAD_WARNING
  | NPP_MISALIGNED_DST_ROI_WARNING
  | NPP_AFFINE_QUAD_INCORRECT_WARNING
  | NPP_DOUBLE_SIZE_WARNING
  | NPP_WRONG_INTERSECTION_ROI_WARNING
  | NPP_LUT_PALETTE_BITSIZE_ERROR
  | NPP_ZC_MODE_NOT_SUPPORTED_ERROR
  | NPP_QUALITY_INDEX_ERROR
  | NPP_CHANNEL_ORDER_ERROR
  | NPP_ZERO_MASK_VALUE_ERROR
  | NPP_NUMBER_OF_CHANNELS_ERROR
  | NPP_COI_ERROR
  | NPP_DIVISOR_ERROR
  | NPP_CHANNEL_ERROR
  | NPP_STRIDE_ERROR
  | NPP_ANCHOR_ERROR
  | NPP_MASK_SIZE_ERROR
  | NPP_MOMENT_00_ZERO_ERROR
  | NPP_THRESHOLD_NEGATIVE_LEVEL_ERROR
  | NPP_THRESHOLD_ERROR
  | NPP_CONTEXT_MATCH_ERROR
  | NPP_FFT_FLAG_ERROR
  | NPP_FFT_ORDER_ERROR
  | NPP_SCALE_RANGE_ERROR
  | NPP_DATA_TYPE_ERROR
  | NPP_OUT_OFF_RANGE_ERROR
  | NPP_DIVIDE_BY_ZERO_ERROR
  | NPP_RANGE_ERROR
  | NPP_NO_MEMORY_ERROR
  | NPP_ERROR_RESERVED
  | NPP_NO_OPERATION_WARNING
  | NPP_DIVIDE_BY_ZERO_WARNING
  | NPP_OVERFLOW_ERROR
  | NPP_CORRUPTED_DATA_ERROR
  deriving DecidableEq, Repr

/-- The cases of the switch of `nppErrorString` (NPP >= 7.0), in the order of
the source: the label and the string returned. -/
def nppCases : List (NppCase × String) :=
  [
    (.NPP_NOT_SUPPORTED_MODE_ERROR, "NPP_NOT_SUPPORTED_MODE_ERROR"),
    (.NPP_ROUND_MODE_NOT_SUPPORTED_ERROR, "NPP_ROUND_MODE_NOT_SUPPORTED_ERROR"),
    (.NPP_RESIZE_NO_OPERATION_ERROR, "NPP_RESIZE_NO_OPERATION_ERROR"),
    (.NPP_NOT_SUFFICIENT_COMPUTE_CAPABILITY, "NPP_NOT_SUFFICIENT_COMPUTE_CAPABILITY"),
    (.NPP_BAD_ARGUMENT_ERROR, "NPP_BAD_ARGUMENT_ERROR"),
    (.NPP_COEFFICIENT_ERROR, "NPP_COEFFICIENT_ERROR"),
    (.NPP_RECTANGLE_ERROR, "NPP_RECTANGLE_ERROR"),
    (.NPP_QUADRANGLE_ERROR, "NPP_QUADRANGLE_ERROR"),
    (.NPP_MEMORY_ALLOCATION_ERR, "NPP_MEMORY_ALLOCATION_ERROR"),
    (.NPP_HISTOGRAM_NUMBER_OF_LEVELS_ERROR, "NPP_HISTOGRAM_NUMBER_OF_LEVELS_ERROR"),
    (.NPP_INVALID_HOST_POINTER_ERROR, "NPP_INVALID_HOST_POINTER_ERROR"),
    (.NPP_INVALID_DEVICE_POINTER_ERROR, "NPP_INVALID_DEVICE_POINTER_ERROR"),
    (.NPP_LUT_NUMBER_OF_LEVELS_ERROR, "NPP_LUT_NUMBER_OF_LEVELS_ERROR"),
    (.NPP_TEXTURE_BIND_ERROR, "NPP_TEXTURE_BIND_ERROR"),
    (.NPP_WRONG_INTERSECTION_ROI_ERROR, "NPP_WRONG_INTERSECTION_ROI_ERROR"),
    (.NPP_NOT_EVEN_STEP_ERROR, "NPP_NOT_EVEN_STEP_ERROR"),
    (.NPP_INTERPOLATION_ERROR, "NPP_INTERPOLATION_ERROR"),
    (.NPP_RESIZE_FACTOR_ERROR, "NPP_RESIZE_FACTOR_ERROR"),
    (.NPP_HAAR_CLASSIFIER_PIXEL_MATCH_ERROR, "NPP_HAAR_CLASSIFIER_PIXEL_MATCH_ERROR"),
    (.NPP_MEMFREE_ERROR, "NPP_MEMFREE_ERROR"),
    (.NPP_MEMSET_ERROR, "NPP_MEMSET_ERROR"),
    (.NPP_MEMCPY_ERROR, "NPP_MEMCPY_ERROR"),
    (.NPP_MIRROR_FLIP_ERROR, "NPP_MIRROR_FLIP_ERROR"),
    (.NPP_ALIGNMENT_ERROR, "NPP_ALIGNMENT_ERROR"),
    (.NPP_STEP_ERROR, "NPP_STEP_ERROR"),
    (.NPP_SIZE_ERROR, "NPP_SIZE_ERROR"),
    (.NPP_NULL_POINTER_ERROR, "NPP_NULL_POINTER_ERROR"),
    (.NPP_CUDA_KERNEL_EXECUTION_ERROR, "NPP_CUDA_KERNEL_EXECUTION_ERROR"),
    (.NPP_NOT_IMPLEMENTED_ERROR, "NPP_NOT_IMPLEMENTED_ERROR"),
    (.NPP_ERROR, "NPP_ERROR"),
    (.NPP_SUCCESS, "NPP_SUCCESS"),
    (.NPP_WRONG_INTERSECTION_QUAD_WARNING, "NPP_WRONG_INTERSECTION_QUAD_WARNING"),
    (.NPP_MISALIGNED_DST_ROI_WARNING, "NPP_MISALIGNED_DST_ROI_WARNING"),
    (.NPP_AFFINE_QUAD_INCORRECT_WARNING, "NPP_AFFINE_QUAD_INCORRECT_WARNING"),
    (.NPP_DOUBLE_SIZE_WARNING, "NPP_DOUBLE_SIZE_WARNING"),
    (.NPP_WRONG_INTERSECTION_ROI_WARNING, "NPP_WRONG_INTERSECTION_ROI_WARNING"),
    (.NPP_LUT_PALETTE_BITSIZE_ERROR, "NPP_LUT_PALETTE_BITSIZE_ERROR"),
    (.NPP_ZC_MODE_NOT_SUPPORTED_ERROR, "NPP_ZC_MODE_NOT_SUPPORTED_ERROR"),
    (.NPP_QUALITY_INDEX_ERROR, "NPP_QUALITY_INDEX_ERROR"),
    (.NPP_CHANNEL_ORDER_ERROR, "NPP_CHANNEL_ORDER_ERROR"),
    (.NPP_ZERO_MASK_VALUE_ERROR, "NPP_ZERO_MASK_VALUE_ERROR"),
    (.NPP_NUMBER_OF_CHANNELS_ERROR, "NPP_NUMBER_OF_CHANNELS_ERROR"),
    (.NPP_COI_ERROR, "NPP_COI_ERROR"),
    (.NPP_DIVISOR_ERROR, "NPP_DIVISOR_ERROR"),
    (.NPP_CHANNEL_ERROR, "NPP_CHANNEL_ERROR"),
    (.NPP_STRIDE_ERROR, "NPP_STRIDE_ERROR"),
    (.NPP_ANCHOR_ERROR, "NPP_ANCHOR_ERROR"),
    (.NPP_MASK_SIZE_ERROR, "NPP_MASK_SIZE_ERROR"),
    (.NPP_MOMENT_00_ZERO_ERROR, "NPP_MOMENT_00_ZERO_ERROR"),
    (.NPP_THRESHOLD_NEGATIVE_LEVEL_ERROR, "NPP_THRESHOLD_NEGATIVE_LEVEL_ERROR"),
    (.NPP_THRESHOLD_ERROR, "NPP_THRESHOLD_ERROR"),
    (.NPP_CONTEXT_MATCH_ERROR, "NPP_CONTEXT_MATCH_ERROR"),
    (.NPP_FFT_FLAG_ERROR, "NPP_FFT_FLAG_ERROR"),
    (.NPP_FFT_ORDER_ERROR, "NPP_FFT_ORDER_ERROR"),
    (.NPP_SCALE_RANGE_ERROR, "NPP_SCALE_RANGE_ERROR"),
    (.NPP_DATA_TYPE_ERROR, "NPP_DATA_TYPE_ERROR"),
    (.NPP_OUT_OFF_RANGE_ERROR, "NPP_OUT_OFF_RANGE_ERROR"),
    (.NPP_DIVIDE_BY_ZERO_ERROR, "NPP_DIVIDE_BY_ZERO_ERROR"),
    (.NPP_RANGE_ERROR, "NPP_RANGE_ERROR"),
    (.NPP_NO_MEMORY_ERROR, "NPP_NO_MEMORY_ERROR"),
    (.NPP_ERROR_RESERVED, "NPP_ERROR_RESERVED"),
    (.NPP_NO_OPERATION_WARNING, "NPP_NO_OPERATION_WARNING"),
    (.NPP_DIVIDE_BY_ZERO_WARNING, "NPP_DIVIDE_BY_ZERO_WARNING"),
    (.NPP_OVERFLOW_ERROR, "NPP_OVERFLOW_ERROR"),
    (.NPP_CORRUPTED_DATA_ERROR, "NPP_CORRUPTED_DATA_ERROR")
  ]

/-- Function `static const char* nppErrorString(NppStatus error)`: the string of
the case whose label has the value `error`, and `"<unknown>"` after the
switch. `value` gives the integer value of each enumerator. -/
def nppErrorString (value : NppCase → Int) (error : Int) : String :=
  match nppCases.find? (fun c => value c.1 == error) with
  | some c => c.2
  | none => "<unknown>"

/-- Function `const char* error_string(NppStatus status)`. -/
def error_string (value : NppCase → Int) (status : Int) : String :=
  nppErrorString value status

/-- The status `status` is the value of a case label of the switch. -/
def handled (value : NppCase → Int) (status : Int) : Bool :=
  nppCases.any (fun c => value c.1 == status)

end nvcvcam

/-! ## Runs and example workers -/

namespace nvcvcam.thread

/-- The derived data after `n` calls of `tick()` from `u`. -/
def tickIter {σ : Type} (h : Hooks σ) : Nat → σ → σ
  | 0, u => u
  | n + 1, u => tickIter h n (h.tick u).2

/-- What can happen during a run besides reads of the state: the background
thread takes a step, or some caller requests a stop (`_stopping = true`). -/
inductive Event where
  | threadStep
  | stopRequested
  deriving DecidableEq, Repr

/-- The effect of one event on the object. -/
def applyEvent {σ : Type} (g : Unspecified) (h : Hooks σ)
    (s : StoppableThread σ) : Event → StoppableThread σ
  | .threadStep => threadStep g h s
  | .stopRequested => { s with _stopping := true }

/-- The state of a run (a `start` on `s`, followed by the background execution
sequence) after the events `evs`. -/
def runState {σ : Type} (g : Unspecified) (h : Hooks σ)
    (s : StoppableThread σ) (evs : List Event) : StoppableThread σ :=
  evs.foldl (applyEvent g h) s.spawn

/-- A worker that overrides only `tick()`, which always succeeds. -/
def alwaysTick : Hooks Unit :=
  Hooks.onlyTick (fun u => (true, u))

/-- A worker whose `setup()` fails. -/
def failingSetup : Hooks Unit :=
  { alwaysTick with setup := fun u => (false, u) }

/-- A worker counting its calls of `tick()`; the call number `N` is the first
to return false. -/
def countingTick (N : Nat) : Hooks Nat :=
  Hooks.onlyTick (fun n => (decide (n + 1 < N), n + 1))

/-- The invariant of a run started on `s0`, by program point of the
background thread: the state published so far and the hooks called so far. -/
def RunInv {σ : Type} (s0 s : StoppableThread σ) : Prop :=
  match s._thread with
  | none => False
  | some .atSetup => s._state = State.INITIALIZING ∧ s.log = s0.log
  | some .atOnRunning =>
    s._state = State.RUNNING ∧ s.log = s0.log ++ [Hook.setup]
  | some .atLoop =>
    s._state = State.RUNNING ∧
      ∃ k, s.log = s0.log ++ Hook.setup :: Hook.on_running :: List.replicate k Hook.tick
  | some (.atCleanup _) =>
    s._state = State.RUNNING ∧
      ∃ k, s.log = s0.log ++ Hook.setup :: Hook.on_running :: List.replicate k Hook.tick
  | some .finished => s._state ≠ State.RUNNING
  | some .terminated =>
    ∃ k, s.log = s0.log ++
      (Hook.setup :: Hook.on_running :: List.replicate k Hook.tick ++ [Hook.cleanup])

/-- The worker `alwaysTick` just after a blocking `start`: the state is
`RUNNING` and the thread is about to call `on_running()`. -/
def startedWorker : StoppableThread Unit where
  _stopping := false
  _state := State.RUNNING
  _thread := some Pc.atOnRunning
  user := ()
  log := [Hook.setup]

/-- The worker `startedWorker` after a completed `stop`: the loop never ran,
`cleanup()` was called, the state is `STOPPED` and the handle is released. -/
def stoppedWorker : StoppableThread Unit where
  _stopping := true
  _state := State.STOPPED
  _thread := none
  user := ()
  log := [Hook.setup, Hook.on_running, Hook.cleanup]

/-- One choice for the points the specification leaves open. -/
def someChoice : Unspecified where
  abortFails := true
  stopNonBlocking := true

end nvcvcam.thread

/-! ## Auxiliary facts -/

namespace nvcvcam.thread

theorem lor_eq_zero_iff (a b : Nat) : a ||| b = 0 ↔ a = 0 ∧ b = 0 := by
  constructor
  · intro h
    have key : ∀ i, (a.testBit i || b.testBit i) = false := by
      intro i
      rw [← Nat.testBit_or, h, Nat.zero_testBit]
    constructor
    · apply Nat.eq_of_testBit_eq
      intro i
      have hi := key i
      simp only [Bool.or_eq_false_iff] at hi
      simp [hi.1]
    · apply Nat.eq_of_testBit_eq
      intro i
      have hi := key i
      simp only [Bool.or_eq_false_iff] at hi
      simp [hi.2]
  · rintro ⟨rfl, rfl⟩
    rfl

theorem val_and_val (s t : State) : s.val &&& t.val ≠ 0 ↔ s = t := by
  cases s <;> cases t <;> decide

theorem val_and_maskOf (M : List State) (s : State) :
    s.val &&& maskOf M ≠ 0 ↔ s ∈ M := by
  induction M with
  | nil => simp [maskOf]
  | cons t M ih =>
    have hm : maskOf (t :: M) = t.val ||| maskOf M := rfl
    rw [hm, Nat.and_or_distrib_left, Ne, lor_eq_zero_iff, not_and_or,
      List.mem_cons]
    exact or_congr (val_and_val s t) ih

/-! ## The claims settled on the header -/

/-- C8: the four `State` values are non-zero and pairwise bit-disjoint, so for
every set `M` of states and every state `s`, `s & mask(M)` is non-zero exactly
when `s` is a member of `M`, where `mask(M)` is the bitwise OR of the members
of `M`. -/
theorem state_mask_membership :
    (∀ s : State, s.val ≠ 0) ∧
    (∀ s t : State, s ≠ t → s.val &&& t.val = 0) ∧
    (∀ (M : List State) (s : State), s.val &&& maskOf M ≠ 0 ↔ s ∈ M) := by
  refine ⟨?_, ?_, val_and_maskOf⟩
  · intro s
    cases s <;> decide
  · intro s t hst
    by_contra hne
    exact hst ((val_and_val s t).mp hne)

/-- C5: `ready()` returns true if and only if the state is exactly `RUNNING`
(hence false for `STOPPED`, `INITIALIZING` and `FAILED`), and it leaves the
object (state, cancellation flag, thread handle and all) unchanged. -/
theorem ready_iff_running {σ : Type} (s : StoppableThread σ) :
    (s.ready.1 = true ↔ s._state = State.RUNNING) ∧
    (s._state = State.STOPPED ∨ s._state = State.INITIALIZING ∨
      s._state = State.FAILED → s.ready.1 = false) ∧
    s.ready.2 = s ∧
    s.ready.2._state = s._state ∧ s.ready.2._stopping = s._stopping ∧
    s.ready.2._thread = s._thread := by
  refine ⟨by simp [StoppableThread.ready], ?_, rfl, rfl, rfl, rfl⟩
  intro hs
  rcases hs with hs | hs | hs <;> simp [StoppableThread.ready, hs]

/-- C6: a freshly constructed worker has state `STOPPED`, a cancellation flag
that is false and no thread handle; `ready()` on it returns false. -/
theorem new_is_stopped {σ : Type} (u : σ) :
    (StoppableThread.new u)._state = State.STOPPED ∧
    (StoppableThread.new u)._stopping = false ∧
    (StoppableThread.new u)._thread = none ∧
    (StoppableThread.new u).ready.1 = false := by
  refine ⟨rfl, rfl, rfl, ?_⟩
  simp [StoppableThread.ready, StoppableThread.new]

/-- C9: for a derived class that overrides only `tick()`, the hooks `setup()`,
`on_running()` and `cleanup()` return true on every call, whatever the state
of the worker, and leave every field of the worker unchanged. -/
theorem default_hooks_succeed {σ : Type} (tick : σ → Bool × σ)
    (s : StoppableThread σ) :
    s.call (Hooks.onlyTick tick) Hook.setup = (true, s) ∧
    s.call (Hooks.onlyTick tick) Hook.on_running = (true, s) ∧
    s.call (Hooks.onlyTick tick) Hook.cleanup = (true, s) :=
  ⟨rfl, rfl, rfl⟩

end nvcvcam.thread

namespace nvcvcam

theorem nppCases_strings_nodup : (nppCases.map Prod.snd).Nodup := by
  decide

theorem nppCases_not_unknown : "<unknown>" ∉ nppCases.map Prod.snd := by
  decide

end nvcvcam

namespace nvcvcam

theorem nppErrorString_of_find_some {value : NppCase → Int} {x : Int}
    {c : NppCase × String}
    (hc : nppCases.find? (fun c => value c.1 == x) = some c) :
    nppErrorString value x = c.2 ∧ c ∈ nppCases ∧ value c.1 = x := by
  refine ⟨by simp [nppErrorString, hc], List.mem_of_find?_eq_some hc, ?_⟩
  have := List.find?_some hc
  simpa using this

theorem nppErrorString_of_find_none {value : NppCase → Int} {x : Int}
    (hc : nppCases.find? (fun c => value c.1 == x) = none) :
    nppErrorString value x = "<unknown>" ∧ handled value x = false := by
  refine ⟨by simp [nppErrorString, hc], ?_⟩
  rw [List.find?_eq_none] at hc
  simp only [handled, List.any_eq_false]
  exact hc

theorem handled_of_find_some {value : NppCase → Int} {x : Int}
    {c : NppCase × String}
    (hc : nppCases.find? (fun c => value c.1 == x) = some c) :
    handled value x = true := by
  have h := nppErrorString_of_find_some hc
  simp only [handled, List.any_eq_true]
  exact ⟨c, h.2.1, by simp [h.2.2]⟩

theorem nppCases_string_ne_unknown {c : NppCase × String} (hc : c ∈ nppCases) :
    c.2 ≠ "<unknown>" := by
  intro h
  exact nppCases_not_unknown (h ▸ List.mem_map_of_mem Prod.snd hc)

/-- C10: in the NPP >= 7.0 configuration `error_string(NppStatus)` identifies
the status: two statuses get the same string only if they are equal or neither
is a handled case, and `"<unknown>"` is returned exactly for the unhandled
values. -/
theorem error_string_identifies (value : NppCase → Int) (a b : Int) :
    (error_string value a = error_string value b →
      a = b ∨ (handled value a = false ∧ handled value b = false)) ∧
    (error_string value a = "<unknown>" ↔ handled value a = false) := by
  unfold error_string
  constructor
  · intro hab
    cases ha : nppCases.find? (fun c => value c.1 == a) with
    | none =>
      have h1 := nppErrorString_of_find_none ha
      cases hb : nppCases.find? (fun c => value c.1 == b) with
      | none => exact Or.inr ⟨h1.2, (nppErrorString_of_find_none hb).2⟩
      | some d =>
        have h2 := nppErrorString_of_find_some hb
        rw [h1.1, h2.1] at hab
        exact absurd hab.symm (nppCases_string_ne_unknown h2.2.1)
    | some c =>
      have h1 := nppErrorString_of_find_some ha
      cases hb : nppCases.find? (fun c => value c.1 == b) with
      | none =>
        have h2 := nppErrorString_of_find_none hb
        rw [h1.1, h2.1] at hab
        exact absurd hab (nppCases_string_ne_unknown h1.2.1)
      | some d =>
        have h2 := nppErrorString_of_find_some hb
        rw [h1.1, h2.1] at hab
        have hcd : c = d :=
          List.inj_on_of_nodup_map nppCases_strings_nodup h1.2.1 h2.2.1 hab
        left
        rw [← h1.2.2, ← h2.2.2, hcd]
  · cases ha : nppCases.find? (fun c => value c.1 == a) with
    | none =>
      have h1 := nppErrorString_of_find_none ha
      simp [h1.1, h1.2]
    | some c =>
      have h1 := nppErrorString_of_find_some ha
      have h3 := handled_of_find_some ha
      rw [h1.1, h3]
      simp [nppCases_string_ne_unknown h1.2.1]

end nvcvcam

/-! ## The claims settled on the modelled members -/

namespace nvcvcam.thread

theorem threadStep_finished {σ : Type} (g : Unspecified) (h : Hooks σ)
    (s : StoppableThread σ) (hs : s._thread = some Pc.finished) :
    threadStep g h s = s := by
  simp [threadStep, hs]

theorem threadSteps_finished {σ : Type} (g : Unspecified) (h : Hooks σ)
    (n : Nat) (s : StoppableThread σ) (hs : s._thread = some Pc.finished) :
    threadSteps g h n s = s := by
  induction n with
  | zero => rfl
  | succ n ih => rw [threadSteps, threadStep_finished g h s hs, ih]

theorem threadSteps_no_thread {σ : Type} (g : Unspecified) (h : Hooks σ)
    (n : Nat) (s : StoppableThread σ) (hs : s._thread = none) :
    threadSteps g h n s = s := by
  induction n with
  | zero => rfl
  | succ n ih =>
    have : threadStep g h s = s := by simp [threadStep, hs]
    rw [threadSteps, this, ih]

theorem threadSteps_add {σ : Type} (g : Unspecified) (h : Hooks σ)
    (m n : Nat) (s : StoppableThread σ) :
    threadSteps g h (m + n) s = threadSteps g h n (threadSteps g h m s) := by
  induction m generalizing s with
  | zero => simp [threadSteps]
  | succ m ih =>
    rw [Nat.succ_add, threadSteps, threadSteps, ih]

/-- C7: on a freshly constructed, never-started worker, `wait` with the mask
`RUNNING` and a timeout of zero returns false, and the worker is unchanged: in
particular its state is still `STOPPED`. -/
theorem wait_running_on_fresh {σ : Type} (g : Unspecified) (h : Hooks σ)
    (u : σ) (sched : List Nat) :
    (StoppableThread.new u).wait g h (maskOf [State.RUNNING]) (some 0) sched
      = .ok (false, StoppableThread.new u) ∧
    (StoppableThread.new u)._state = State.STOPPED := by
  refine ⟨?_, rfl⟩
  cases sched <;>
    simp [StoppableThread.wait, StoppableThread.waitFrom, StoppableThread.new,
      StoppableThread.dead, State.val, maskOf, timedOut]

end nvcvcam.thread

namespace nvcvcam.thread

theorem waitFrom_match {σ : Type} (g : Unspecified) (h : Hooks σ)
    (state : Nat) (timeout : Option Nat) (sched : List Nat) (elapsed : Nat)
    (s : StoppableThread σ) (hd : s.dead = false)
    (hm : s._state.val &&& state ≠ 0) :
    s.waitFrom g h state timeout sched elapsed = .ok (true, s) := by
  cases sched <;> simp [StoppableThread.waitFrom, hd, hm]

theorem waitFrom_timeout {σ : Type} (g : Unspecified) (h : Hooks σ)
    (state : Nat) (timeout : Option Nat) (sched : List Nat) (elapsed : Nat)
    (s : StoppableThread σ) (hd : s.dead = false)
    (hm : s._state.val &&& state = 0) (ht : timedOut timeout elapsed = true) :
    s.waitFrom g h state timeout sched elapsed = .ok (false, s) := by
  cases sched <;> simp [StoppableThread.waitFrom, hd, hm, ht]

theorem waitFrom_sleep {σ : Type} (g : Unspecified) (h : Hooks σ)
    (state : Nat) (timeout : Option Nat) (n : Nat) (rest : List Nat)
    (elapsed : Nat) (s : StoppableThread σ) (hd : s.dead = false)
    (hm : s._state.val &&& state = 0) (ht : timedOut timeout elapsed = false) :
    s.waitFrom g h state timeout (n :: rest) elapsed =
      (threadSteps g h n s).waitFrom g h state timeout rest
        (elapsed + SLEEP_INTERVAL_NS) := by
  rw [StoppableThread.waitFrom]
  simp [hd, hm, ht]

/-- The object once the background thread has seen `setup()` fail. -/
theorem threadStep_setup_fails {σ : Type} (g : Unspecified) (h : Hooks σ)
    (s : StoppableThread σ) (hpc : s._thread = some Pc.atSetup)
    (hsetup : (h.setup s.user).1 = false) :
    threadStep g h s =
      { s with _state := State.FAILED, _thread := some Pc.finished,
               user := (h.setup s.user).2, log := s.log ++ [Hook.setup] } := by
  simp [threadStep, hpc, StoppableThread.invoke, StoppableThread.call, hsetup]

theorem waitFrom_setup_fails {σ : Type} (g : Unspecified) (h : Hooks σ)
    (sched : List Nat) (hfair : ∃ n ∈ sched, 0 < n) (elapsed : Nat)
    (s : StoppableThread σ) (hpc : s._thread = some Pc.atSetup)
    (hst : s._state = State.INITIALIZING)
    (hsetup : (h.setup s.user).1 = false) :
    s.waitFrom g h (State.RUNNING.val ||| State.FAILED.val) none sched elapsed
      = .ok (true, threadStep g h s) := by
  induction sched generalizing elapsed with
  | nil => simp at hfair
  | cons n rest ih =>
    have hd : s.dead = false := by simp [StoppableThread.dead, hpc]
    have hm : s._state.val &&& (State.RUNNING.val ||| State.FAILED.val) = 0 := by
      rw [hst]; decide
    rw [waitFrom_sleep g h _ none n rest elapsed s hd hm rfl]
    rcases Nat.eq_zero_or_pos n with hn | hn
    · subst hn
      have hrest : ∃ n ∈ rest, 0 < n := by
        obtain ⟨m, hm, hpos⟩ := hfair
        rcases List.mem_cons.mp hm with rfl | hm
        · exact absurd hpos (lt_irrefl _)
        · exact ⟨m, hm, hpos⟩
      exact ih hrest (elapsed + SLEEP_INTERVAL_NS)
    · obtain ⟨k, rfl⟩ : ∃ k, n = k + 1 := ⟨n - 1, by omega⟩
      have hfail := threadStep_setup_fails g h s hpc hsetup
      have hfin : (threadStep g h s)._thread = some Pc.finished := by
        rw [hfail]
      have hstate : (threadStep g h s)._state = State.FAILED := by
        rw [hfail]
      have hsteps : threadSteps g h (k + 1) s = threadStep g h s := by
        rw [threadSteps, threadSteps_finished g h k _ hfin]
      rw [hsteps]
      apply waitFrom_match
      · simp [StoppableThread.dead, hfin]
      · rw [hstate]; decide

/-- C1: for a worker whose `setup()` returns false, `start(block = true)` with
an unlimited timeout returns false and leaves the state `FAILED`; during the
run only `setup()` has been called (neither `tick()` nor `cleanup()`), and the
background thread has returned, so that no later step calls anything. The
background thread is given at least one step while the caller is blocked. -/
theorem start_returns_false_when_setup_fails {σ : Type} (g : Unspecified)
    (h : Hooks σ) (s : StoppableThread σ) (sched : List Nat)
    (hthread : s._thread = none)
    (hsetup : (h.setup s.user).1 = false)
    (hfair : ∃ n ∈ sched, 0 < n) :
    ∃ s', s.start g h true none sched = .ok (false, s') ∧
      s'._state = State.FAILED ∧
      s'.log = s.log ++ [Hook.setup] ∧
      Hook.tick ∉ s'.log.drop s.log.length ∧
      Hook.cleanup ∉ s'.log.drop s.log.length ∧
      ∀ n, threadSteps g h n s' = s' := by
  have hpc : s.spawn._thread = some Pc.atSetup := rfl
  have hw := waitFrom_setup_fails g h sched hfair 0 s.spawn hpc rfl hsetup
  have hfail := threadStep_setup_fails g h s.spawn hpc hsetup
  refine ⟨threadStep g h s.spawn, ?_, ?_, ?_, ?_, ?_, ?_⟩
  · simp only [StoppableThread.start, StoppableThread.dead, hthread,
      StoppableThread.wait, hw]
    simp [hfail, StoppableThread.ready]
  · rw [hfail]
  · rw [hfail]; rfl
  · rw [hfail]; simp [StoppableThread.spawn]
  · rw [hfail]; simp [StoppableThread.spawn]
  · intro n
    exact threadSteps_finished g h n _ (by rw [hfail])

/-- C1 at a concrete worker: `setup()` fails, the thread gets its first step
during the second sleep. -/
theorem start_returns_false_when_setup_fails_witness :
    ∃ s', (StoppableThread.new ()).start someChoice failingSetup true none [0, 1]
        = .ok (false, s') ∧
      s'._state = State.FAILED ∧
      s'.log = (StoppableThread.new ()).log ++ [Hook.setup] ∧
      Hook.tick ∉ s'.log.drop (StoppableThread.new ()).log.length ∧
      Hook.cleanup ∉ s'.log.drop (StoppableThread.new ()).log.length ∧
      ∀ n, threadSteps someChoice failingSetup n s' = s' :=
  start_returns_false_when_setup_fails someChoice failingSetup
    (StoppableThread.new ()) [0, 1] rfl rfl ⟨1, by simp, by decide⟩

end nvcvcam.thread

namespace nvcvcam.thread

theorem threadSteps_loop {σ : Type} (g : Unspecified) (h : Hooks σ) (m : Nat)
    (u : σ) (l : List Hook)
    (htrue : ∀ k, k < m → (h.tick (tickIter h k u)).1 = true) :
    threadSteps g h m
        { _stopping := false, _state := State.RUNNING,
          _thread := some Pc.atLoop, user := u, log := l } =
      { _stopping := false, _state := State.RUNNING,
        _thread := some Pc.atLoop, user := tickIter h m u,
        log := l ++ List.replicate m Hook.tick } := by
  induction m generalizing u l with
  | zero => simp [threadSteps, tickIter]
  | succ m ih =>
    have h0 : (h.tick u).1 = true := htrue 0 (Nat.succ_pos m)
    have hstep : threadStep g h
        { _stopping := false, _state := State.RUNNING,
          _thread := some Pc.atLoop, user := u, log := l } =
        { _stopping := false, _state := State.RUNNING,
          _thread := some Pc.atLoop, user := (h.tick u).2,
          log := l ++ [Hook.tick] } := by
      simp [threadStep, StoppableThread.invoke, StoppableThread.call, h0]
    rw [threadSteps, hstep,
      ih (h.tick u).2 (l ++ [Hook.tick])
        (fun k hk => htrue (k + 1) (Nat.succ_lt_succ hk))]
    simp [tickIter, List.replicate_succ]

theorem tickIter_succ {σ : Type} (h : Hooks σ) (m : Nat) (u : σ) :
    tickIter h (m + 1) u = (h.tick (tickIter h m u)).2 := by
  induction m generalizing u with
  | zero => rfl
  | succ m ih => exact ih (h.tick u).2

theorem threadSteps_until_tick_fails {σ : Type} (g : Unspecified) (h : Hooks σ)
    (s : StoppableThread σ) (m : Nat)
    (hsetup : (h.setup s.user).1 = true)
    (hrun : (h.on_running (h.setup s.user).2).1 = true)
    (htrue : ∀ k, k < m →
      (h.tick (tickIter h k (h.on_running (h.setup s.user).2).2)).1 = true)
    (hfalse :
      (h.tick (tickIter h m (h.on_running (h.setup s.user).2).2)).1 = false)
    (hclean :
      (h.cleanup (tickIter h (m + 1) (h.on_running (h.setup s.user).2).2)).1
        = true) :
    threadSteps g h (m + 4) s.spawn =
      { _stopping := false, _state := State.FAILED,
        _thread := some Pc.finished,
        user := (h.cleanup
          (tickIter h (m + 1) (h.on_running (h.setup s.user).2).2)).2,
        log := s.log ++ ([Hook.setup, Hook.on_running] ++
          List.replicate (m + 1) Hook.tick ++ [Hook.cleanup]) } := by
  have hlast : tickIter h (m + 1) (h.on_running (h.setup s.user).2).2 =
      (h.tick (tickIter h m (h.on_running (h.setup s.user).2).2)).2 :=
    tickIter_succ h m _
  have e : m + 4 = 1 + (1 + (m + (1 + 1))) := by omega
  rw [e, threadSteps_add, threadSteps_add, threadSteps_add, threadSteps_add]
  have h1 : threadSteps g h 1 s.spawn =
      { _stopping := false, _state := State.RUNNING,
        _thread := some Pc.atOnRunning, user := (h.setup s.user).2,
        log := s.log ++ [Hook.setup] } := by
    simp [threadSteps, threadStep, StoppableThread.spawn,
      StoppableThread.invoke, StoppableThread.call, hsetup]
  have h2 : threadSteps g h 1
      { _stopping := false, _state := State.RUNNING,
        _thread := some Pc.atOnRunning, user := (h.setup s.user).2,
        log := s.log ++ [Hook.setup] } =
      { _stopping := false, _state := State.RUNNING,
        _thread := some Pc.atLoop,
        user := (h.on_running (h.setup s.user).2).2,
        log := s.log ++ [Hook.setup] ++ [Hook.on_running] } := by
    simp [threadSteps, threadStep, StoppableThread.invoke,
      StoppableThread.call, hrun]
  rw [h1, h2, threadSteps_loop g h m _ _ htrue]
  rw [hlast] at hclean
  simp [threadSteps, threadStep, StoppableThread.invoke, StoppableThread.call,
    hfalse, hclean, finalState, hlast, List.replicate_succ',
    List.append_assoc]

/-- C2: for every N > 0, if `setup()` and `on_running()` succeed, no stop is
requested, `tick()` returns true on its first N-1 calls and false on its N-th,
and `cleanup()` returns true, then the run (a `start` followed by the steps of
the background thread) calls `tick()` exactly N times and `cleanup()` exactly
once and ends in the state `FAILED`, the thread function having returned. -/
theorem run_until_tick_fails {σ : Type} (g : Unspecified) (h : Hooks σ)
    (s : StoppableThread σ) (N : Nat) (timeout : Option Nat)
    (sched : List Nat)
    (hN : 0 < N)
    (hthread : s._thread = none)
    (hsetup : (h.setup s.user).1 = true)
    (hrun : (h.on_running (h.setup s.user).2).1 = true)
    (htrue : ∀ k, k + 1 < N →
      (h.tick (tickIter h k (h.on_running (h.setup s.user).2).2)).1 = true)
    (hfalse :
      (h.tick (tickIter h (N - 1) (h.on_running (h.setup s.user).2).2)).1
        = false)
    (hclean :
      (h.cleanup (tickIter h N (h.on_running (h.setup s.user).2).2)).1
        = true) :
    ∃ s1, s.start g h false timeout sched = .ok (true, s1) ∧
      s1._stopping = false ∧
      ∀ n, N + 3 ≤ n → ∃ run,
        (threadSteps g h n s1).log = s.log ++ run ∧
        run.count Hook.tick = N ∧
        run.count Hook.cleanup = 1 ∧
        (threadSteps g h n s1)._state = State.FAILED ∧
        (threadSteps g h n s1)._thread = some Pc.finished ∧
        (threadSteps g h n s1)._stopping = false := by
  obtain ⟨m, rfl⟩ : ∃ m, N = m + 1 := ⟨N - 1, by omega⟩
  refine ⟨s.spawn, ?_, rfl, ?_⟩
  · simp [StoppableThread.start, StoppableThread.dead, hthread]
  · intro n hn
    obtain ⟨d, rfl⟩ : ∃ d, n = (m + 4) + d := ⟨n - (m + 4), by omega⟩
    have hfin := threadSteps_until_tick_fails g h s m hsetup hrun
      (fun k hk => htrue k (Nat.succ_lt_succ hk)) hfalse hclean
    rw [threadSteps_add, hfin, threadSteps_finished g h d _ rfl]
    refine ⟨[Hook.setup, Hook.on_running] ++
      List.replicate (m + 1) Hook.tick ++ [Hook.cleanup], rfl, ?_, ?_,
      rfl, rfl, rfl⟩
    · simp [List.count_replicate]
    · simp [List.count_replicate]

end nvcvcam.thread

namespace nvcvcam.thread

/-- C2 at a concrete worker: `tick()` fails on its third call. -/
theorem run_until_tick_fails_witness :
    ∃ s1, (StoppableThread.new 0).start someChoice (countingTick 3) false none []
        = .ok (true, s1) ∧
      s1._stopping = false ∧
      ∀ n, 3 + 3 ≤ n → ∃ run,
        (threadSteps someChoice (countingTick 3) n s1).log
          = (StoppableThread.new 0).log ++ run ∧
        run.count Hook.tick = 3 ∧
        run.count Hook.cleanup = 1 ∧
        (threadSteps someChoice (countingTick 3) n s1)._state = State.FAILED ∧
        (threadSteps someChoice (countingTick 3) n s1)._thread
          = some Pc.finished ∧
        (threadSteps someChoice (countingTick 3) n s1)._stopping = false :=
  run_until_tick_fails someChoice (countingTick 3) (StoppableThread.new 0) 3
    none [] (by decide) rfl rfl rfl
    (fun k hk => by
      have hk2 : k < 2 := by omega
      interval_cases k <;> rfl) rfl rfl

theorem waitFrom_result {σ : Type} (g : Unspecified) (h : Hooks σ)
    (state : Nat) (timeout : Option Nat) (sched : List Nat) (elapsed : Nat)
    (s : StoppableThread σ) (r : Bool) (s' : StoppableThread σ)
    (hw : s.waitFrom g h state timeout sched elapsed = .ok (r, s')) :
    (r = true → s'._state.val &&& state ≠ 0) ∧ (timeout = none → r = true) := by
  induction sched generalizing elapsed s with
  | nil =>
    rw [StoppableThread.waitFrom] at hw
    split_ifs at hw with hd hm ht
    · simp only [Except.ok.injEq, Prod.mk.injEq] at hw
      obtain ⟨rfl, rfl⟩ := hw
      exact ⟨fun _ => hm, fun _ => rfl⟩
    · simp only [Except.ok.injEq, Prod.mk.injEq] at hw
      obtain ⟨rfl, rfl⟩ := hw
      refine ⟨fun hr => absurd hr (by decide), fun hn => ?_⟩
      subst hn
      simp [timedOut] at ht
  | cons n rest ih =>
    rw [StoppableThread.waitFrom] at hw
    split_ifs at hw with hd hm ht
    · simp only [Except.ok.injEq, Prod.mk.injEq] at hw
      obtain ⟨rfl, rfl⟩ := hw
      exact ⟨fun _ => hm, fun _ => rfl⟩
    · simp only [Except.ok.injEq, Prod.mk.injEq] at hw
      obtain ⟨rfl, rfl⟩ := hw
      refine ⟨fun hr => absurd hr (by decide), fun hn => ?_⟩
      subst hn
      simp [timedOut] at ht
    · exact ih _ _ hw

theorem terminal_of_mask (st : State)
    (hm : st.val &&& (State.STOPPED.val ||| State.FAILED.val) ≠ 0) :
    st = State.STOPPED ∨ st = State.FAILED := by
  cases st
  · exact Or.inl rfl
  · exact absurd (by decide) hm
  · exact absurd (by decide) hm
  · exact Or.inr rfl

end nvcvcam.thread

namespace nvcvcam.thread

/-- C3, as stated, fails: a blocking `start` brings the worker `alwaysTick` to
`RUNNING`; a `stop(block = true)` with a timeout of 200000 ns during which the
background thread does not get to run (two sleeps, no step) completes,
returning false, and the state is still `RUNNING`. -/
theorem stop_timeout_leaves_running :
    (StoppableThread.new ()).start someChoice alwaysTick true none [1]
      = .ok (true, startedWorker) ∧
    startedWorker.stop someChoice alwaysTick true (some 200000) [0, 0]
      = .ok (false, { startedWorker with _stopping := true }) ∧
    ({ startedWorker with _stopping := true } : StoppableThread Unit)._state
      = State.RUNNING ∧
    ¬ (({ startedWorker with _stopping := true } : StoppableThread Unit)._state
        = State.STOPPED ∨
      ({ startedWorker with _stopping := true } : StoppableThread Unit)._state
        = State.FAILED) := by
  refine ⟨rfl, rfl, rfl, ?_⟩
  simp [startedWorker]

/-- C3, amended: whatever the object `s` (so in particular after any sequence
of start/stop pairs), once a `stop(block = true)` call has completed without
timing out, that is, it returned true, as every completed call with an
unlimited timeout does, the state is `STOPPED` or `FAILED`, and neither
`RUNNING` nor `INITIALIZING`. -/
theorem stop_completed_is_terminal {σ : Type} (g : Unspecified) (h : Hooks σ)
    (s : StoppableThread σ) (timeout : Option Nat) (sched : List Nat)
    (r : Bool) (s' : StoppableThread σ)
    (hstop : s.stop g h true timeout sched = .ok (r, s'))
    (hok : r = true ∨ timeout = none) :
    r = true ∧
    (s'._state = State.STOPPED ∨ s'._state = State.FAILED) ∧
    s'._state ≠ State.RUNNING ∧ s'._state ≠ State.INITIALIZING := by
  unfold StoppableThread.stop at hstop
  split_ifs at hstop with hd hblock
  swap
  · exact absurd rfl hblock
  simp only [StoppableThread.wait] at hstop
  split at hstop
  · cases hstop
  · rename_i p hw
    obtain ⟨b, s2⟩ := p
    simp only [Except.ok.injEq, Prod.mk.injEq] at hstop
    obtain ⟨hb, hs'⟩ := hstop
    have hres := waitFrom_result g h _ timeout sched 0 _ b s2 hw
    have hb' : b = true := by
      rcases hok with hr | ht
      · rw [hb, hr]
      · exact hres.2 ht
    have hr : r = true := by rw [← hb, hb']
    have hterm := terminal_of_mask _ (hres.1 hb')
    have hst : s'._state = s2._state := by
      rw [← hs', hb']
      simp
    rw [hst]
    refine ⟨hr, hterm, ?_, ?_⟩
    · rcases hterm with e | e <;> rw [e] <;> decide
    · rcases hterm with e | e <;> rw [e] <;> decide

/-- C3, amended, at a concrete worker: the running worker `alwaysTick` is
stopped with an unlimited timeout; the background thread takes three steps
during the first sleep and the call returns true with the state `STOPPED`. -/
theorem stop_completed_is_terminal_witness :
    startedWorker.stop someChoice alwaysTick true none [3]
      = .ok (true, stoppedWorker) ∧
    (true = true ∧
      (stoppedWorker._state = State.STOPPED ∨
        stoppedWorker._state = State.FAILED) ∧
      stoppedWorker._state ≠ State.RUNNING ∧
      stoppedWorker._state ≠ State.INITIALIZING) :=
  ⟨rfl, stop_completed_is_terminal someChoice alwaysTick startedWorker none [3]
    true stoppedWorker rfl (Or.inr rfl)⟩

end nvcvcam.thread

namespace nvcvcam.thread

theorem runInv_spawn {σ : Type} (s0 : StoppableThread σ) :
    RunInv s0 s0.spawn := by
  simp [RunInv, StoppableThread.spawn]

theorem runInv_threadStep {σ : Type} (g : Unspecified) (h : Hooks σ)
    (s0 s : StoppableThread σ) (hinv : RunInv s0 s) :
    RunInv s0 (threadStep g h s) := by
  obtain ⟨stopping, st, th, u, l⟩ := s
  cases th with
  | none => simp [RunInv] at hinv
  | some pc =>
    cases pc with
    | atSetup =>
      simp only [RunInv] at hinv
      obtain ⟨-, hl⟩ := hinv
      cases hs : (h.setup u).1 <;>
        simp [RunInv, threadStep, StoppableThread.invoke,
          StoppableThread.call, hs, hl]
    | atOnRunning =>
      simp only [RunInv] at hinv
      obtain ⟨hst, hl⟩ := hinv
      cases hs : (h.on_running u).1 <;>
        simp only [RunInv, threadStep, StoppableThread.invoke,
          StoppableThread.call, hs, hst, hl, if_true, if_false,
          Bool.false_eq_true] <;>
        exact ⟨trivial, 0, by simp⟩
    | atLoop =>
      simp only [RunInv] at hinv
      obtain ⟨hst, k, hl⟩ := hinv
      subst hst
      cases stopping
      · cases hs : (h.tick u).1 <;>
          simp only [RunInv, threadStep, StoppableThread.invoke,
            StoppableThread.call, hs, hl, if_true, if_false,
            Bool.false_eq_true, Bool.not_false, Bool.true_and,
            decide_True, decide_eq_true_eq] <;>
          exact ⟨trivial, k + 1, by simp [List.replicate_succ']⟩
      · simp only [RunInv, threadStep, StoppableThread.invoke,
          StoppableThread.call, hl, if_false, Bool.not_true,
          Bool.false_and, Bool.false_eq_true]
        exact ⟨trivial, k, by simp⟩
    | atCleanup why =>
      simp only [RunInv] at hinv
      obtain ⟨hst, k, hl⟩ := hinv
      subst hst
      cases hs : (h.cleanup u).1
      · simp only [RunInv, threadStep, StoppableThread.invoke,
          StoppableThread.call, hs, hl, if_false, Bool.false_eq_true]
        exact ⟨k, by simp⟩
      · simp only [RunInv, threadStep, StoppableThread.invoke,
          StoppableThread.call, hs, hl, if_true]
        cases why
        · simp [finalState]
        · simp [finalState]
        · cases hg : g.abortFails <;> simp [finalState, hg]
    | finished => simpa [RunInv, threadStep] using hinv
    | terminated => simpa [RunInv, threadStep] using hinv

end nvcvcam.thread

namespace nvcvcam.thread

theorem runInv_runState {σ : Type} (g : Unspecified) (h : Hooks σ)
    (s0 : StoppableThread σ) (evs : List Event) :
    RunInv s0 (runState g h s0 evs) := by
  have key : ∀ (evs : List Event) (s : StoppableThread σ), RunInv s0 s →
      RunInv s0 (evs.foldl (applyEvent g h) s) := by
    intro evs
    induction evs with
    | nil => intro s hs; exact hs
    | cons e rest ih =>
      intro s hs
      rw [List.foldl_cons]
      apply ih
      cases e with
      | threadStep => exact runInv_threadStep g h s0 s hs
      | stopRequested => exact hs
  exact key evs _ (runInv_spawn s0)

theorem runInv_running {σ : Type} (s0 s : StoppableThread σ)
    (hinv : RunInv s0 s) (hrun : s._state = State.RUNNING) :
    ∃ rest, s.log = s0.log ++ Hook.setup :: rest ∧
      (Hook.tick ∈ rest → Hook.on_running ∈ rest) := by
  obtain ⟨stopping, st, th, u, l⟩ := s
  simp only at hrun
  subst hrun
  cases th with
  | none => simp [RunInv] at hinv
  | some pc =>
    cases pc with
    | atSetup => simp [RunInv] at hinv
    | atOnRunning =>
      simp only [RunInv] at hinv
      exact ⟨[], hinv.2, by simp⟩
    | atLoop =>
      simp only [RunInv] at hinv
      obtain ⟨-, k, hl⟩ := hinv
      exact ⟨_, hl, by simp⟩
    | atCleanup why =>
      simp only [RunInv] at hinv
      obtain ⟨-, k, hl⟩ := hinv
      exact ⟨_, hl, by simp⟩
    | finished => simp [RunInv] at hinv
    | terminated =>
      simp only [RunInv] at hinv
      obtain ⟨k, hl⟩ := hinv
      exact ⟨_, hl, by simp⟩

theorem runInv_on_running {σ : Type} (g : Unspecified) (h : Hooks σ)
    (s0 s : StoppableThread σ) (hinv : RunInv s0 s) :
    (s._state = State.RUNNING →
      Hook.on_running ∉ s.log.drop s0.log.length →
      s.log.drop s0.log.length = [Hook.setup] ∧
      (threadStep g h s).log = s.log ++ [Hook.on_running] ∧
      (threadStep g h s)._state = State.RUNNING) ∧
    (Hook.on_running ∉ s.log.drop s0.log.length →
      Hook.on_running ∈ (threadStep g h s).log.drop s0.log.length →
      s._state = State.RUNNING ∧ s.log.drop s0.log.length = [Hook.setup]) ∧
    (s._state ≠ State.RUNNING →
      (threadStep g h s)._state = State.RUNNING →
      (threadStep g h s).log.drop s0.log.length = [Hook.setup]) := by
  have hdrop : ∀ x : List Hook, (s0.log ++ x).drop s0.log.length = x :=
    fun x => List.drop_left _ _
  obtain ⟨stopping, st, th, u, l⟩ := s
  cases th with
  | none => simp [RunInv] at hinv
  | some pc =>
    cases pc with
    | atSetup =>
      simp only [RunInv] at hinv
      obtain ⟨hst, hl⟩ := hinv
      subst hst hl
      have hlog : (threadStep g h
          { _stopping := stopping, _state := State.INITIALIZING,
            _thread := some Pc.atSetup, user := u, log := s0.log }).log
          = s0.log ++ [Hook.setup] := by
        cases hs : (h.setup u).1 <;>
          simp [threadStep, StoppableThread.invoke, StoppableThread.call, hs]
      refine ⟨fun hr => by simp at hr, fun _ hin => ?_, fun _ _ => ?_⟩
      · rw [hlog, hdrop] at hin
        simp at hin
      · rw [hlog, hdrop]
    | atOnRunning =>
      simp only [RunInv] at hinv
      obtain ⟨hst, hl⟩ := hinv
      subst hst hl
      have hstep : (threadStep g h
          { _stopping := stopping, _state := State.RUNNING,
            _thread := some Pc.atOnRunning, user := u,
            log := s0.log ++ [Hook.setup] }).log
          = s0.log ++ [Hook.setup] ++ [Hook.on_running] ∧
          (threadStep g h
          { _stopping := stopping, _state := State.RUNNING,
            _thread := some Pc.atOnRunning, user := u,
            log := s0.log ++ [Hook.setup] })._state = State.RUNNING := by
        cases hs : (h.on_running u).1 <;>
          simp [threadStep, StoppableThread.invoke, StoppableThread.call, hs]
      refine ⟨fun _ _ => ⟨hdrop _, hstep.1, hstep.2⟩,
        fun _ _ => ⟨rfl, hdrop _⟩, fun hne => absurd rfl hne⟩
    | atLoop =>
      simp only [RunInv] at hinv
      obtain ⟨hst, k, hl⟩ := hinv
      subst hst hl
      refine ⟨fun _ hnot => ?_, fun hnot => ?_, fun hne => absurd rfl hne⟩
      · exact absurd (by rw [hdrop]; simp) hnot
      · exact absurd (by rw [hdrop]; simp) hnot
    | atCleanup why =>
      simp only [RunInv] at hinv
      obtain ⟨hst, k, hl⟩ := hinv
      subst hst hl
      refine ⟨fun _ hnot => ?_, fun hnot => ?_, fun hne => absurd rfl hne⟩
      · exact absurd (by rw [hdrop]; simp) hnot
      · exact absurd (by rw [hdrop]; simp) hnot
    | finished =>
      simp only [RunInv] at hinv
      have hstep : threadStep g h
          { _stopping := stopping, _state := st,
            _thread := some Pc.finished, user := u, log := l } =
          { _stopping := stopping, _state := st,
            _thread := some Pc.finished, user := u, log := l } :=
        threadStep_finished g h _ rfl
      rw [hstep]
      exact ⟨fun hr => absurd hr hinv, fun hnot hin => absurd hin hnot,
        fun hne hr => absurd hr hne⟩
    | terminated =>
      simp only [RunInv] at hinv
      obtain ⟨k, hl⟩ := hinv
      subst hl
      refine ⟨fun _ hnot => ?_, fun hnot => ?_, fun hne hr => ?_⟩
      · exact absurd (by rw [hdrop]; simp) hnot
      · exact absurd (by rw [hdrop]; simp) hnot
      · have hstep : threadStep g h
            { _stopping := stopping, _state := st,
              _thread := some Pc.terminated, user := u,
              log := s0.log ++ (Hook.setup :: Hook.on_running ::
                List.replicate k Hook.tick ++ [Hook.cleanup]) } =
            { _stopping := stopping, _state := st,
              _thread := some Pc.terminated, user := u,
              log := s0.log ++ (Hook.setup :: Hook.on_running ::
                List.replicate k Hook.tick ++ [Hook.cleanup]) } := by
          simp [threadStep]
        rw [hstep] at hr
        exact absurd hr hne

/-- C4, as stated, fails: in the run of the worker `alwaysTick` started on a
fresh object, after the first step of the background thread the state is
`RUNNING`, `setup()` has completed and `on_running()` has not been called yet. -/
theorem running_before_on_running :
    (StoppableThread.new ()).start someChoice alwaysTick false none []
      = .ok (true, runState someChoice alwaysTick (StoppableThread.new ()) []) ∧
    (runState someChoice alwaysTick (StoppableThread.new ())
      [Event.threadStep])._state = State.RUNNING ∧
    (runState someChoice alwaysTick (StoppableThread.new ())
      [Event.threadStep]).log = [Hook.setup] ∧
    Hook.on_running ∉ (runState someChoice alwaysTick (StoppableThread.new ())
      [Event.threadStep]).log := by
  refine ⟨rfl, rfl, rfl, ?_⟩
  have hl : (runState someChoice alwaysTick (StoppableThread.new ())
      [Event.threadStep]).log = [Hook.setup] := rfl
  rw [hl]
  decide

/-- C4, amended: in every reachable state of a run (a `start` on `s0` followed
by steps of the background thread and stop requests, in any order), whenever
the state is `RUNNING`, `setup()` has already completed on the worker thread;
`on_running()` is called just after the state is set to `RUNNING` and has
completed before any `tick()`. In detail, with the hooks of this run being
those logged since `s0`:

1. in state `RUNNING`, `setup()` has completed, and `on_running()` has
   completed if `tick()` has been called;
2. in state `RUNNING` with `on_running()` not yet called, only `setup()` has
   been called, and the next step of the thread calls `on_running()`, the
   state staying `RUNNING`;
3. a step of the thread that calls `on_running()` starts in state `RUNNING`,
   only `setup()` having been called;
4. a step of the thread that sets the state to `RUNNING` is the one completing
   `setup()`: after it only `setup()` has been called. -/
theorem running_implies_setup_done {σ : Type} (g : Unspecified) (h : Hooks σ)
    (s0 : StoppableThread σ) (evs : List Event) :
    ((runState g h s0 evs)._state = State.RUNNING →
      Hook.setup ∈ (runState g h s0 evs).log.drop s0.log.length ∧
      (Hook.tick ∈ (runState g h s0 evs).log.drop s0.log.length →
        Hook.on_running ∈ (runState g h s0 evs).log.drop s0.log.length)) ∧
    ((runState g h s0 evs)._state = State.RUNNING →
      Hook.on_running ∉ (runState g h s0 evs).log.drop s0.log.length →
      (runState g h s0 evs).log.drop s0.log.length = [Hook.setup] ∧
      (threadStep g h (runState g h s0 evs)).log
        = (runState g h s0 evs).log ++ [Hook.on_running] ∧
      (threadStep g h (runState g h s0 evs))._state = State.RUNNING) ∧
    (Hook.on_running ∉ (runState g h s0 evs).log.drop s0.log.length →
      Hook.on_running ∈
        (threadStep g h (runState g h s0 evs)).log.drop s0.log.length →
      (runState g h s0 evs)._state = State.RUNNING ∧
      (runState g h s0 evs).log.drop s0.log.length = [Hook.setup]) ∧
    ((runState g h s0 evs)._state ≠ State.RUNNING →
      (threadStep g h (runState g h s0 evs))._state = State.RUNNING →
      (threadStep g h (runState g h s0 evs)).log.drop s0.log.length
        = [Hook.setup]) := by
  have hinv := runInv_runState g h s0 evs
  obtain ⟨hB, hC, hD⟩ := runInv_on_running g h s0 _ hinv
  refine ⟨fun hrun => ?_, hB, hC, hD⟩
  obtain ⟨rest, hl, htick⟩ := runInv_running s0 _ hinv hrun
  rw [hl, List.drop_left]
  refine ⟨by simp, fun ht => ?_⟩
  rcases List.mem_cons.mp ht with hne | hin
  · cases hne
  · exact List.mem_cons_of_mem _ (htick hin)

/-- C4, amended, at concrete runs of the worker `alwaysTick` on a fresh object:
after `setup()`, `on_running()`, one call of `tick()` and a stop request seen
by the loop the state is `RUNNING` and both hooks have completed; after the
first step the state is `RUNNING`, `on_running()` has not been called, and it
is called by the next step; the first step itself sets the state to `RUNNING`
with only `setup()` called. -/
theorem running_implies_setup_done_witness :
    ((runState someChoice alwaysTick (StoppableThread.new ())
        [Event.threadStep, Event.threadStep, Event.threadStep,
          Event.stopRequested, Event.threadStep])._state = State.RUNNING ∧
      Hook.setup ∈ (runState someChoice alwaysTick (StoppableThread.new ())
        [Event.threadStep, Event.threadStep, Event.threadStep,
          Event.stopRequested, Event.threadStep]).log.drop
        (StoppableThread.new ()).log.length ∧
      Hook.on_running ∈ (runState someChoice alwaysTick
        (StoppableThread.new ())
        [Event.threadStep, Event.threadStep, Event.threadStep,
          Event.stopRequested, Event.threadStep]).log.drop
        (StoppableThread.new ()).log.length) ∧
    ((runState someChoice alwaysTick (StoppableThread.new ())
        [Event.threadStep])._state = State.RUNNING ∧
      Hook.on_running ∉ (runState someChoice alwaysTick
        (StoppableThread.new ()) [Event.threadStep]).log.drop
        (StoppableThread.new ()).log.length ∧
      (threadStep someChoice alwaysTick (runState someChoice alwaysTick
        (StoppableThread.new ()) [Event.threadStep])).log
        = (runState someChoice alwaysTick (StoppableThread.new ())
            [Event.threadStep]).log ++ [Hook.on_running]) ∧
    ((runState someChoice alwaysTick (StoppableThread.new ()) [])._state
        ≠ State.RUNNING ∧
      (threadStep someChoice alwaysTick (runState someChoice alwaysTick
        (StoppableThread.new ()) []))._state = State.RUNNING ∧
      (threadStep someChoice alwaysTick (runState someChoice alwaysTick
        (StoppableThread.new ()) [])).log.drop
        (StoppableThread.new ()).log.length = [Hook.setup]) := by
  have hnot : Hook.on_running ∉ (runState someChoice alwaysTick
      (StoppableThread.new ()) [Event.threadStep]).log.drop
      (StoppableThread.new ()).log.length := by
    have hl : (runState someChoice alwaysTick (StoppableThread.new ())
        [Event.threadStep]).log.drop (StoppableThread.new ()).log.length
        = [Hook.setup] := rfl
    rw [hl]
    decide
  have hinit : (runState someChoice alwaysTick (StoppableThread.new ())
      [])._state ≠ State.RUNNING := by
    have hs : (runState someChoice alwaysTick (StoppableThread.new ())
        [])._state = State.INITIALIZING := rfl
    rw [hs]
    decide
  have h1 := (running_implies_setup_done someChoice alwaysTick
    (StoppableThread.new ())
    [Event.threadStep, Event.threadStep, Event.threadStep,
      Event.stopRequested, Event.threadStep]).1 rfl
  have h2 := (running_implies_setup_done someChoice alwaysTick
    (StoppableThread.new ()) [Event.threadStep]).2.1 rfl hnot
  have h3 := (running_implies_setup_done someChoice alwaysTick
    (StoppableThread.new ()) []).2.2.2 hinit rfl
  exact ⟨⟨rfl, h1.1, h1.2 (by
      have hl : (runState someChoice alwaysTick (StoppableThread.new ())
          [Event.threadStep, Event.threadStep, Event.threadStep,
            Event.stopRequested, Event.threadStep]).log.drop
          (StoppableThread.new ()).log.length
          = [Hook.setup, Hook.on_running, Hook.tick] := rfl
      rw [hl]
      decide)⟩,
    ⟨rfl, hnot, h2.2.1⟩, ⟨hinit, rfl, h3⟩⟩

end nvcvcam.thread
